import Mathlib

/-!
Verification of the line-list table model, sort comparator, color resolver and
wavelength-range filtering logic of `specviz/widgets/linelists_window.py`,
shallowly embedded in Lean 4.

Embedding conventions:
* Python floats are modelled as exact rationals (`ℚ`); `float()` on a decimal
  literal is modelled by an exact decimal parser (`pyFloat`).
* Qt `QColor` components are `Fin 256` (`QColor.red/green/blue` always return
  values in `0..255`).
* Python list indexing (which accepts negative indices counting from the end
  and raises `IndexError` otherwise) is modelled by `pyGet` over `Int` indices,
  with `none` standing for the raised `IndexError`.
* Code that can raise returns `Option`; `none` models the exception.
-/

set_option maxRecDepth 4000

/-! ## The fixed color palette (`ID_COLORS`, linelists_window.py lines 32-42)

The Qt `GlobalColor` enumeration members are represented by their RGB values;
the dict is a `List` of `(name, rgb)` pairs in the source's insertion order,
which is the iteration order of a Python dict. -/

/-- An RGB triple as produced by `QColor.red()/green()/blue()` (each 0..255). -/
abbrev RGB := Fin 256 × Fin 256 × Fin 256

/-- The `ID_COLORS` mapping from linelists_window.py, with each
`Qt.GlobalColor` member replaced by its RGB value. -/
def ID_COLORS : List (String × RGB) :=
  [("black",      (0, 0, 0)),
   ("red",        (255, 0, 0)),
   ("green",      (0, 255, 0)),
   ("blue",       (0, 0, 255)),
   ("cyan",       (0, 255, 255)),
   ("magenta",    (255, 0, 255)),
   ("dark red",   (128, 0, 0)),
   ("dark green", (0, 128, 0)),
   ("dark blue",  (0, 0, 128))]

/-- `NLINES_WARN` constant (linelists_window.py line 45). -/
def NLINES_WARN : Nat := 150

/-- The distance criterion of `LineListTableModel.__init__` (line 623):
`abs(orig_rgb.red() - r) + abs(orig_rgb.green() - g) + abs(orig_rgb.blue() - b)`. -/
def colorDist (a b : RGB) : Nat :=
  ((a.1 : Int) - (b.1 : Int)).natAbs
    + ((a.2.1 : Int) - (b.2.1 : Int)).natAbs
    + ((a.2.2 : Int) - (b.2.2 : Int)).natAbs

/-- One iteration of the color scan in `LineListTableModel.__init__`
(lines 621-626): `if dist < min_dist: min_dist = dist; result = orig_color`.
The accumulator is the pair `(min_dist, result)`; `result` holds the RGB value
of the palette color stored so far (`none` models the initial state, in which
`result` still holds the input cell rather than a palette member). -/
def scanStep (c : RGB) (acc : Nat × Option RGB) (e : String × RGB) : Nat × Option RGB :=
  if colorDist e.2 c < acc.1 then (colorDist e.2 c, some e.2) else acc

/-- The full scan loop of `LineListTableModel.__init__` (lines 619-626),
starting from `min_dist = 100000`. -/
def minScan (c : RGB) : Nat × Option RGB :=
  List.foldl (scanStep c) (100000, none) ID_COLORS

/-- The color-name resolution of `LineListTableModel.__init__` (lines 615-630):
run the distance scan, then recover the palette key via
`[k for k, value in ID_COLORS.items() if value == result][0]`.
`none` models the `IndexError` that `[0]` would raise on an empty match list
(and the case in which `result` was never set to a palette member). -/
def resolveColor (c : RGB) : Option String :=
  let result := (minScan c).2
  (List.map (fun e => e.1)
    (List.filter (fun e => decide (result = some e.2)) ID_COLORS)).head?

/-- Spec-side definition, for the refinement comparison only (spec §4.1):
"the palette entry whose RGB distance ... to the input is minimal.
Deterministic tie-break: first palette entry (in fixed enumeration order)
achieving the minimum." On ties the earlier entry is preferred. -/
def firstMinimalEntry (c : RGB) : List (String × RGB) → Option (String × RGB)
  | [] => none
  | e :: t =>
    match firstMinimalEntry c t with
    | none => some e
    | some f => if colorDist e.2 c ≤ colorDist f.2 c then some e else some f

/-! ## The table model (`LineListTableModel`, lines 572-684) -/

/-- A cell value of the line-list source: either a `QColor` (resolved to a
palette name by the model) or any other value, represented by its Python
`str()` rendering, which is what `QVariant(str(cell))` stores. -/
inductive Cell where
  | color (c : RGB)
  | val (s : String)
deriving DecidableEq

/-- The line-list domain object consumed by this module.  The class itself
lives in `specviz.core.linelist`, which is not part of this snippet; its shape
is modelled from the spec (§3, §6): an ordered sequence of rows of cells,
column names, units per column (represented by their `str()`), per-column
tooltips (`none`/`some []` model the falsy values the code guards against),
a name, and the numeric data of its wavelength column (`self[WAVELENGTH_COLUMN].data`),
listed row by row in parallel with `rows`. -/
structure LineList where
  rows : List (List Cell)
  colnames : List String
  units : List String
  tooltips : Option (List String)
  name : String
  wavelengths : List ℚ
deriving DecidableEq

/-- Modelled from the spec: the `WAVELENGTH_COLUMN` column-name constant
imported from `specviz.core.linelist` (not under src/). -/
def WAVELENGTH_COLUMN : String := "wavelength"

/-- Modelled from the spec: the `ERROR_COLUMN` column-name constant imported
from `specviz.core.linelist` (not under src/). -/
def ERROR_COLUMN : String := "error"

/-- Modelled from the spec: `extract_range` of the line-list domain object
(`specviz.core.linelist`, not under src/): "delegates to the source's own
range-extraction capability bounded by `range.min`/`range.max`"; an absent
bound is unbounded on that side, a present bound acts as a one-sided
constraint (spec §4.4). Rows are kept together with their wavelengths. -/
def LineList.extract_range (l : LineList) (r : Option ℚ × Option ℚ) : LineList :=
  let keep : ℚ → Bool := fun w =>
    (match r.1 with
     | some amin => decide (amin ≤ w)
     | none => true) &&
    (match r.2 with
     | some amax => decide (w ≤ amax)
     | none => true)
  let pairs := List.filter (fun p => keep p.2) (l.rows.zip l.wavelengths)
  { l with rows := pairs.map Prod.fst, wavelengths := pairs.map Prod.snd }

/-- Rendering of one cell in `LineListTableModel.__init__` (lines 615-633):
a `QColor` cell goes through the palette scan and the stored text is the
palette key; any other cell is stored as `str(cell)`.  `none` models the
`IndexError` the key lookup would raise if the scan result matched no
palette entry. -/
def cellText : Cell → Option String
  | Cell.color c => resolveColor c
  | Cell.val s => some s

/-- The text a cell renders to.  This is a helper characterization used in the
statements and proofs below; `cellText` never actually fails (see
`cellText_eq`), so the `getD` default is never taken. -/
def renderCell (c : Cell) : String := (cellText c).getD ""

/-- The inner loop of `LineListTableModel.__init__` (lines 601-633): build the
list `cells` of rendered texts for one source row. -/
def buildRow : List Cell → Option (List String)
  | [] => some []
  | c :: t =>
    match cellText c, buildRow t with
    | some s, some rest => some (s :: rest)
    | _, _ => none

/-- The outer loop of `LineListTableModel.__init__` (lines 600-638): build
`_row_cells` row by row. -/
def buildCells : List (List Cell) → Option (List (List String))
  | [] => some []
  | row :: rest =>
    match buildRow row, buildCells rest with
    | some cells, some others => some (cells :: others)
    | _, _ => none

/-- The state of a constructed `LineListTableModel`: the reference to the
source list plus the three frozen fields `_row_cells`, `_nrows`, `_ncols`. -/
structure LineListTableModel where
  linelist : LineList
  row_cells : List (List String)
  nrows : Nat
  ncols : Nat
deriving DecidableEq

/-- `LineListTableModel.__init__` (lines 574-638).  Inside the row loop the
source re-assigns `self._nrows = len(self._row_cells)` and
`self._ncols = len(self._row_cells[0])` after each append; the frozen values
are therefore the total number of processed rows and the length of row 0
(`headD []` is exactly `_row_cells[0]` whenever the loop ran at least once,
and the initial values `_nrows = _ncols = 0` otherwise).  `none` models an
exception escaping the constructor. -/
def LineListTableModel.build (l : LineList) : Option LineListTableModel :=
  match buildCells l.rows with
  | none => none
  | some rcs =>
    some { linelist := l
           row_cells := rcs
           nrows := rcs.length
           ncols := (rcs.headD []).length }

/-- Mutation of the underlying line list after construction (the model keeps
only a reference to it; the frozen fields are untouched). -/
def setLinelist (m : LineListTableModel) (l' : LineList) : LineListTableModel :=
  { m with linelist := l' }

/-- `LineListTableModel.rowCount` (lines 640-644); the unused Qt `parent`
argument is dropped. -/
def LineListTableModel.rowCount (m : LineListTableModel) : Nat := m.nrows

/-- `LineListTableModel.columnCount` (lines 646-647). -/
def LineListTableModel.columnCount (m : LineListTableModel) : Nat := m.ncols

/-- The Qt item-data roles relevant to this module. -/
inductive Role where
  | display
  | toolTip
  | other
deriving DecidableEq

/-- Qt header orientations. -/
inductive Orient where
  | horizontal
  | vertical
deriving DecidableEq

/-- Result of `LineListTableModel.data`: the empty `QVariant()` returned for a
non-display role, a stored cell text, or a raised `IndexError`. -/
inductive DataResult where
  | empty
  | cell (s : String)
  | indexError
deriving DecidableEq

/-- Result of `LineListTableModel.headerData`: a returned string, the
`QAbstractTableModel.headerData` default, or a raised `IndexError`. -/
inductive HeaderResult where
  | text (s : String)
  | defaultData
  | indexError
deriving DecidableEq

/-- Python list indexing `l[i]`: a non-negative index must be `< len(l)`, a
negative index counts from the end (`l[i]` is `l[len(l) + i]` for
`-len(l) ≤ i < 0`), anything else raises `IndexError` (modelled by `none`). -/
def pyGet {α : Type} (l : List α) (i : Int) : Option α :=
  if 0 ≤ i then l[i.toNat]?
  else if 0 ≤ i + l.length then l[(i + l.length).toNat]?
  else none

/-- `LineListTableModel.data` (lines 649-663): non-display roles get an empty
`QVariant`; otherwise the frozen text `self._row_cells[index.row()][index.column()]`
is returned, with Python list-index semantics. -/
def LineListTableModel.data (m : LineListTableModel) (row col : Int) (role : Role) : DataResult :=
  if role ≠ Role.display then DataResult.empty
  else
    match pyGet m.row_cells row with
    | none => DataResult.indexError
    | some cells =>
      match pyGet cells col with
      | none => DataResult.indexError
      | some s => DataResult.cell s

/-- In-bounds lookup into the frozen structure (non-negative indices). -/
def cellView (m : LineListTableModel) (r c : Nat) : Option String :=
  m.row_cells[r]?.bind (fun row => row[c]?)

/-- `LineListTableModel.headerData` (lines 665-681); `sec` is the source's
`section` argument (a Lean keyword). -/
def LineListTableModel.headerData (m : LineListTableModel) (sec : Int)
    (orient : Orient) (role : Role) : HeaderResult :=
  if role = Role.display ∧ orient = Orient.horizontal then
    match pyGet m.linelist.colnames sec with
    | none => HeaderResult.indexError
    | some n => HeaderResult.text n
  else if role = Role.toolTip ∧ orient = Orient.horizontal then
    match pyGet m.linelist.colnames sec with
    | none => HeaderResult.indexError
    | some cname =>
      if cname = WAVELENGTH_COLUMN ∨ cname = ERROR_COLUMN then
        match pyGet m.linelist.units sec with
        | none => HeaderResult.indexError
        | some u => HeaderResult.text u
      else
        -- `if self._linelist.tooltips:` — Python truthiness: both `None` and
        -- an empty list take the `else` branch producing `''`.
        match m.linelist.tooltips with
        | none => HeaderResult.text ""
        | some ts =>
          if ts.isEmpty then HeaderResult.text ""
          else
            match pyGet ts sec with
            | none => HeaderResult.indexError
            | some t => HeaderResult.text t
  else HeaderResult.defaultData

/-! ## The sort comparator (`SortModel.lessThan`, lines 694-708) -/

/-- Digit run at the front of a character list. -/
def takeDigits : List Char → List Char × List Char
  | [] => ([], [])
  | c :: t =>
    if c.isDigit then
      let (ds, r) := takeDigits t
      (c :: ds, r)
    else ([], c :: t)

/-- Numeric value of a digit run. -/
def digitsToNat (ds : List Char) : Nat :=
  List.foldl (fun a c => 10 * a + (c.toNat - '0'.toNat)) 0 ds

/-- Exponent part after `e`/`E`: optional sign then a non-empty digit run
consuming the rest of the input. -/
def parseExp (cs : List Char) : Option Int :=
  let sgnRest : Int × List Char :=
    match cs with
    | '+' :: t => (1, t)
    | '-' :: t => (-1, t)
    | _ => (1, cs)
  let (ds, r) := takeDigits sgnRest.2
  if ds = [] ∨ r ≠ [] then none else some (sgnRest.1 * (digitsToNat ds : Int))

/-- The rational `n / 10 ^ fl` scaled by `10 ^ ex`, built with `mkRat` and
integer arithmetic only (so that it evaluates by kernel reduction). -/
def scaleDec (n : Nat) (fl : Nat) (ex : Int) : ℚ :=
  if 0 ≤ ex then mkRat (n * 10 ^ ex.toNat) (10 ^ fl)
  else mkRat n (10 ^ (fl + (-ex).toNat))

/-- Unsigned decimal literal: `digits [. digits] [(e|E) [sign] digits]` with at
least one digit in the integer and fraction parts combined.  The value of
`intpart.fracpart` is the digit string `intpart ++ fracpart` read as a natural
number, divided by `10 ^ len fracpart`. -/
def parseFloatCore (cs : List Char) : Option ℚ :=
  let (ip, r1) := takeDigits cs
  let fpR2 : List Char × List Char :=
    match r1 with
    | '.' :: t => takeDigits t
    | _ => ([], r1)
  if ip = [] ∧ fpR2.1 = [] then none
  else
    let n : Nat := digitsToNat (ip ++ fpR2.1)
    let fl : Nat := fpR2.1.length
    match fpR2.2 with
    | [] => some (scaleDec n fl 0)
    | 'e' :: t => (parseExp t).map (fun ex => scaleDec n fl ex)
    | 'E' :: t => (parseExp t).map (fun ex => scaleDec n fl ex)
    | _ => none

/-- Leading-whitespace removal. -/
def dropSpaces (cs : List Char) : List Char := cs.dropWhile Char.isWhitespace

/-- Whitespace stripping at both ends, as `float()` does before parsing. -/
def pyStrip (cs : List Char) : List Char :=
  (dropSpaces (dropSpaces cs).reverse).reverse

/-- Model of Python `float()` on its argument text: `some q` when the text is
a (whitespace-padded, optionally signed) finite decimal literal with value
`q`, `none` when `float()` raises `ValueError`.  The value is kept as an exact
rational; IEEE rounding, `inf`/`nan` literals and digit-grouping underscores
are not modelled. -/
def pyFloat (s : String) : Option ℚ :=
  match pyStrip s.toList with
  | '+' :: t => parseFloatCore t
  | '-' :: t => (parseFloatCore t).map (fun q => -q)
  | cs => parseFloatCore cs

/-- `SortModel.lessThan` (lines 694-708): try `float()` on both cell texts and
compare numerically; when either parse raises, the bare `except` falls back to
Python's lexicographic (code-point) string comparison `str(l) < str(r)`,
modelled as the lexicographic order on the strings' character lists (which is
also how Lean's `<` on `String` is specified).
The function is total: a failed parse is an ordinary branch, not an escaping
exception. -/
def SortModel.lessThan (left_data right_data : String) : Bool :=
  match pyFloat left_data, pyFloat right_data with
  | some l, some r => decide (l < r)
  | _, _ => decide (left_data.data < right_data.data)

/-! ## The range dialog logic (`LineListsWindow`, lines 279-316) -/

/-- A Qt text field with a `QDoubleValidator`, as consumed by
`_get_range_from_textfields`: its validity state and the numeric value
`float(text)` of its text (a `QDoubleValidator`-acceptable text always
parses). -/
structure TextField where
  hasAcceptableInput : Bool
  value : ℚ
deriving DecidableEq

/-- The observable state of the `nlines_label` QLabel: its text and the style
sheet set by `_compute_nlines_in_waverange`. -/
structure QLabel where
  text : String
  styleSheet : String
deriving DecidableEq

/-- `LineListsWindow._get_range_from_textfields` (lines 279-292): both fields
must hold acceptable input; equal values resolve to `(None, None)`; otherwise
the pair of values is returned (the source wraps them in `Quantity` with the
plot's spectral-axis unit, which carries no information used here). -/
def getRangeFromTextfields (min_text max_text : TextField) : Option ℚ × Option ℚ :=
  if min_text.hasAcceptableInput && max_text.hasAcceptableInput then
    let amin := min_text.value
    let amax := max_text.value
    if amax ≠ amin then (some amin, some amax) else (none, none)
  else (none, none)

/-- The body of `LineListsWindow._compute_nlines_in_waverange` (lines 302-311)
after the range has been read from the text fields: when at least one bound is
present, extract, count `len(extracted[WAVELENGTH_COLUMN].data)` and set the
label text and color; otherwise return the label untouched. -/
def computeNlinesFromRange (line_list : LineList) (r : Option ℚ × Option ℚ)
    (label : QLabel) : QLabel :=
  if r.1 ≠ none ∨ r.2 ≠ none then
    let extracted := line_list.extract_range r
    let nlines := extracted.wavelengths.length
    { text := toString nlines
      styleSheet := "color:" ++ (if nlines < NLINES_WARN then "black" else "red") }
  else label

/-- `LineListsWindow._compute_nlines_in_waverange` (lines 298-311). -/
def computeNlinesInWaverange (line_list : LineList) (min_text max_text : TextField)
    (label : QLabel) : QLabel :=
  computeNlinesFromRange line_list (getRangeFromTextfields min_text max_text) label

/-! ## Helper lemmas: the color scan computes the first minimal palette entry -/

theorem colorDist_lt (a b : RGB) : colorDist a b < 100000 := by
  have h1 := a.1.isLt
  have h2 := a.2.1.isLt
  have h3 := a.2.2.isLt
  have k1 := b.1.isLt
  have k2 := b.2.1.isLt
  have k3 := b.2.2.isLt
  rw [colorDist]
  omega

theorem fme_eq_none (c : RGB) : ∀ l, firstMinimalEntry c l = none → l = [] := by
  intro l h
  cases l with
  | nil => rfl
  | cons x t =>
    rcases ht : firstMinimalEntry c t with _ | g
    · simp only [firstMinimalEntry, ht] at h
      exact Option.noConfusion h
    · simp only [firstMinimalEntry, ht] at h
      by_cases hcomp : colorDist x.2 c ≤ colorDist g.2 c
      · rw [if_pos hcomp] at h
        cases h
      · rw [if_neg hcomp] at h
        cases h

theorem fme_exists (c : RGB) (l : List (String × RGB)) (h : l ≠ []) :
    ∃ f, firstMinimalEntry c l = some f := by
  cases hf : firstMinimalEntry c l with
  | none => exact absurd (fme_eq_none c l hf) h
  | some f => exact ⟨f, rfl⟩

theorem fme_mem (c : RGB) :
    ∀ (l : List (String × RGB)) (f : String × RGB),
      firstMinimalEntry c l = some f → f ∈ l := by
  intro l
  induction l with
  | nil => intro f h; simp [firstMinimalEntry] at h
  | cons e t ih =>
    intro f h
    rcases ht : firstMinimalEntry c t with _ | g
    · simp only [firstMinimalEntry, ht, Option.some.injEq] at h
      subst h
      exact List.mem_cons_self _ _
    · simp only [firstMinimalEntry, ht] at h
      by_cases hcomp : colorDist e.2 c ≤ colorDist g.2 c
      · rw [if_pos hcomp, Option.some.injEq] at h
        subst h
        exact List.mem_cons_self _ _
      · rw [if_neg hcomp, Option.some.injEq] at h
        subst h
        exact List.mem_cons_of_mem _ (ih g ht)

theorem fme_min (c : RGB) :
    ∀ (l : List (String × RGB)) (f : String × RGB),
      firstMinimalEntry c l = some f →
      ∀ e ∈ l, colorDist f.2 c ≤ colorDist e.2 c := by
  intro l
  induction l with
  | nil => intro f h; simp [firstMinimalEntry] at h
  | cons x t ih =>
    intro f h e he
    rcases ht : firstMinimalEntry c t with _ | g
    · simp only [firstMinimalEntry, ht, Option.some.injEq] at h
      subst h
      have htnil := fme_eq_none c t ht
      subst htnil
      rcases List.mem_cons.mp he with rfl | he
      · exact le_refl _
      · cases he
    · simp only [firstMinimalEntry, ht] at h
      by_cases hcomp : colorDist x.2 c ≤ colorDist g.2 c
      · rw [if_pos hcomp, Option.some.injEq] at h
        subst h
        rcases List.mem_cons.mp he with rfl | he
        · exact le_refl _
        · exact le_trans hcomp (ih g ht e he)
      · rw [if_neg hcomp, Option.some.injEq] at h
        subst h
        rcases List.mem_cons.mp he with rfl | he
        · omega
        · exact ih g ht e he

theorem fme_first (c : RGB) :
    ∀ (l : List (String × RGB)) (f : String × RGB),
      firstMinimalEntry c l = some f →
      ∃ l₁ l₂, l = l₁ ++ f :: l₂ ∧ ∀ e ∈ l₁, colorDist f.2 c < colorDist e.2 c := by
  intro l
  induction l with
  | nil => intro f h; simp [firstMinimalEntry] at h
  | cons x t ih =>
    intro f h
    rcases ht : firstMinimalEntry c t with _ | g
    · simp only [firstMinimalEntry, ht, Option.some.injEq] at h
      subst h
      exact ⟨[], t, rfl, by simp⟩
    · simp only [firstMinimalEntry, ht] at h
      by_cases hcomp : colorDist x.2 c ≤ colorDist g.2 c
      · rw [if_pos hcomp, Option.some.injEq] at h
        subst h
        exact ⟨[], t, rfl, by simp⟩
      · rw [if_neg hcomp, Option.some.injEq] at h
        subst h
        obtain ⟨l₁, l₂, hsplit, hlt⟩ := ih g ht
        refine ⟨x :: l₁, l₂, by rw [hsplit]; rfl, ?_⟩
        intro e he
        rcases List.mem_cons.mp he with rfl | he
        · omega
        · exact hlt e he

theorem foldl_scan_some (c : RGB) :
    ∀ (l : List (String × RGB)) (f : String × RGB),
      firstMinimalEntry c l = some f →
      ∀ (best : Nat) (res : Option RGB),
        List.foldl (scanStep c) (best, res) l =
          if colorDist f.2 c < best then (colorDist f.2 c, some f.2) else (best, res) := by
  intro l
  induction l with
  | nil => intro f h; simp [firstMinimalEntry] at h
  | cons e t ih =>
    intro f h best res
    rw [List.foldl_cons]
    have hstep : scanStep c (best, res) e =
        if colorDist e.2 c < best then (colorDist e.2 c, some e.2) else (best, res) := rfl
    rcases ht : firstMinimalEntry c t with _ | g
    · simp only [firstMinimalEntry, ht, Option.some.injEq] at h
      subst h
      have htnil := fme_eq_none c t ht
      subst htnil
      rw [List.foldl_nil, hstep]
    · simp only [firstMinimalEntry, ht] at h
      by_cases hcomp : colorDist e.2 c ≤ colorDist g.2 c
      · rw [if_pos hcomp, Option.some.injEq] at h
        subst h
        rw [hstep]
        by_cases hb : colorDist e.2 c < best
        · rw [if_pos hb, ih g ht,
              if_neg (show ¬ colorDist g.2 c < colorDist e.2 c by omega)]
        · rw [if_neg hb, ih g ht,
              if_neg (show ¬ colorDist g.2 c < best by omega)]
      · rw [if_neg hcomp, Option.some.injEq] at h
        subst h
        rw [hstep]
        by_cases hb : colorDist e.2 c < best
        · rw [if_pos hb, ih g ht,
              if_pos (show colorDist g.2 c < colorDist e.2 c by omega),
              if_pos (show colorDist g.2 c < best by omega)]
        · rw [if_neg hb, ih g ht]

theorem palette_filter (f : String × RGB) (hf : f ∈ ID_COLORS) :
    List.filter (fun e => decide (some f.2 = some e.2)) ID_COLORS = [f] := by
  fin_cases hf <;> decide

theorem resolveColor_spec (c : RGB) :
    ∃ f, firstMinimalEntry c ID_COLORS = some f ∧ resolveColor c = some f.1 := by
  obtain ⟨f, hf⟩ := fme_exists c ID_COLORS (by decide)
  refine ⟨f, hf, ?_⟩
  have hscan : minScan c = (colorDist f.2 c, some f.2) := by
    rw [minScan, foldl_scan_some c ID_COLORS f hf, if_pos (colorDist_lt f.2 c)]
  have hmem := fme_mem c ID_COLORS f hf
  simp only [resolveColor, hscan, palette_filter f hmem]
  rfl

/-! ## Helper lemmas: construction of the table model never fails -/

theorem cellText_eq (c : Cell) : cellText c = some (renderCell c) := by
  cases c with
  | color rgb =>
    obtain ⟨f, _, hr⟩ := resolveColor_spec rgb
    simp [cellText, renderCell, hr]
  | val s => rfl

theorem buildRow_eq : ∀ row : List Cell, buildRow row = some (List.map renderCell row) := by
  intro row
  induction row with
  | nil => rfl
  | cons c t ih => simp only [buildRow, cellText_eq c, ih, List.map_cons]

theorem buildCells_eq :
    ∀ rows : List (List Cell),
      buildCells rows = some (List.map (fun row => List.map renderCell row) rows) := by
  intro rows
  induction rows with
  | nil => rfl
  | cons row rest ih => simp only [buildCells, buildRow_eq row, ih, List.map_cons]

theorem build_fields (l : LineList) (m : LineListTableModel)
    (h : LineListTableModel.build l = some m) :
    m.linelist = l ∧
    m.row_cells = List.map (fun row => List.map renderCell row) l.rows ∧
    m.nrows = l.rows.length ∧
    m.ncols = (l.rows.headD []).length := by
  simp only [LineListTableModel.build, buildCells_eq, Option.some.injEq] at h
  subst h
  refine ⟨rfl, rfl, by simp, ?_⟩
  cases l.rows with
  | nil => rfl
  | cons r rest => simp

theorem build_total (l : LineList) : ∃ m, LineListTableModel.build l = some m := by
  refine ⟨{ linelist := l
            row_cells := List.map (fun row => List.map renderCell row) l.rows
            nrows := (List.map (fun row => List.map renderCell row) l.rows).length
            ncols := ((List.map (fun row => List.map renderCell row) l.rows).headD []).length }, ?_⟩
  simp only [LineListTableModel.build, buildCells_eq]

/-! ## Helper lemmas: Python list indexing at a natural-number index -/

theorem pyGet_natCast {α : Type} (l : List α) (n : Nat) :
    pyGet l (n : Int) = l[n]? := by
  rw [pyGet, if_pos (by omega)]
  simp

theorem data_natCast (m : LineListTableModel) (r c : Nat) :
    m.data (r : Int) (c : Int) Role.display =
      (match cellView m r c with
       | some s => DataResult.cell s
       | none => DataResult.indexError) := by
  simp only [LineListTableModel.data, cellView, pyGet_natCast]
  rw [if_neg (by simp)]
  cases h1 : m.row_cells[r]? with
  | none => rfl
  | some cells =>
    cases h2 : cells[c]? with
    | none => simp [h2]
    | some s => simp [h2]

/-! ## Helper lemma: filtering zipped parallel columns -/

theorem filter_zip_map_snd (keep : ℚ → Bool) :
    ∀ (rs : List (List Cell)) (ws : List ℚ), rs.length = ws.length →
      List.map Prod.snd (List.filter (fun p => keep p.2) (rs.zip ws)) =
        List.filter keep ws := by
  intro rs
  induction rs with
  | nil =>
    intro ws h
    cases ws with
    | nil => rfl
    | cons w wt => simp at h
  | cons r rt ih =>
    intro ws h
    cases ws with
    | nil => simp at h
    | cons w wt =>
      rw [List.zip_cons_cons, List.filter_cons, List.filter_cons]
      by_cases hk : keep w = true
      · simp only [hk, if_pos]
        rw [List.map_cons, ih wt (by simpa using h)]
      · simp only [hk]
        rw [if_neg (by simp [hk]), if_neg (by simp [hk])]
        exact ih wt (by simpa using h)

/-! ## The claims -/

/-- C2: for every pair of cell texts, `SortModel.lessThan` parses both as
numeric values; if both parses succeed it returns the numeric less-than
result (in particular "3.5" < "10" numerically, although "10" < "3.5"
lexicographically), if either parse fails it returns the lexicographic
(code-point) comparison of the two texts (so "12" < "abc"), and a failed
parse never propagates an exception (the comparator is a total function,
with parse failure modelled as the `none` branch). -/
theorem C2_comparator :
    (∀ a b : String, ∀ x y : ℚ, pyFloat a = some x → pyFloat b = some y →
        SortModel.lessThan a b = decide (x < y)) ∧
    (∀ a b : String, pyFloat a = none ∨ pyFloat b = none →
        SortModel.lessThan a b = decide (a.data < b.data)) ∧
    SortModel.lessThan "3.5" "10" = true ∧
    SortModel.lessThan "10" "3.5" = false ∧
    ("10".data < "3.5".data) ∧
    SortModel.lessThan "12" "abc" = true ∧
    pyFloat "abc" = none := by
  refine ⟨?_, ?_, by decide, by decide, by decide, by decide, by decide⟩
  · intro a b x y hx hy
    simp only [SortModel.lessThan, hx, hy]
  · intro a b h
    rcases h with h | h
    · simp only [SortModel.lessThan, h]
    · cases ha : pyFloat a <;> simp only [SortModel.lessThan, ha, h]

/-- Witness for C2 at concrete inputs: "3.5" and "10" both parse and are
compared numerically; "abc" fails to parse and "12" vs "abc" is compared
as strings. -/
theorem C2_comparator_witness :
    pyFloat "3.5" = some (mkRat 7 2) ∧
    pyFloat "10" = some 10 ∧
    SortModel.lessThan "3.5" "10" = decide ((mkRat 7 2) < (10 : ℚ)) ∧
    pyFloat "abc" = none ∧
    SortModel.lessThan "12" "abc" = decide ("12".data < "abc".data) :=
  ⟨by decide, by decide,
   C2_comparator.1 "3.5" "10" (mkRat 7 2) 10 (by decide) (by decide),
   by decide,
   C2_comparator.2.1 "12" "abc" (Or.inr (by decide))⟩

/-- C3: color resolution returns the name of a palette entry of minimal
L1 distance to the input, the first such entry in the palette's fixed
enumeration order (the entry `f` sits in the palette after a prefix `l₁`
of entries of strictly greater distance and has distance at most every
entry's); in particular RGB (250, 10, 10) resolves to "red". -/
theorem C3_nearest_color :
    (∀ c : RGB, ∃ (f : String × RGB) (l₁ l₂ : List (String × RGB)),
        resolveColor c = some f.1 ∧
        ID_COLORS = l₁ ++ f :: l₂ ∧
        (∀ e ∈ ID_COLORS, colorDist f.2 c ≤ colorDist e.2 c) ∧
        (∀ e ∈ l₁, colorDist f.2 c < colorDist e.2 c)) ∧
    resolveColor (250, 10, 10) = some "red" := by
  constructor
  · intro c
    obtain ⟨f, hf, hr⟩ := resolveColor_spec c
    obtain ⟨l₁, l₂, hsplit, hfirst⟩ := fme_first c ID_COLORS f hf
    exact ⟨f, l₁, l₂, hr, hsplit, fme_min c ID_COLORS f hf, hfirst⟩
  · decide

/-- C9: resolving the exact RGB value of any palette entry returns that
entry's own name (resolution is a fixed point on palette members), and
resolution never fails — it returns some palette name for every input
color. -/
theorem C9_palette_fixed_point :
    (∀ e ∈ ID_COLORS, resolveColor e.2 = some e.1) ∧
    (∀ c : RGB, (resolveColor c).isSome = true) := by
  constructor
  · intro e he
    fin_cases he <;> decide
  · intro c
    obtain ⟨f, _, hr⟩ := resolveColor_spec c
    simp [hr]

/-- Witness for C9 at a concrete palette entry: "black". -/
theorem C9_palette_fixed_point_witness :
    (("black", ((0, 0, 0) : RGB)) ∈ ID_COLORS) ∧
    resolveColor (0, 0, 0) = some "black" :=
  ⟨by decide, C9_palette_fixed_point.1 ("black", (0, 0, 0)) (by decide)⟩

/-- C4: for every built snapshot, `rowCount` equals the number of rows of the
source at construction time, and both `rowCount` and `columnCount` are frozen:
they are read from the stored `_nrows`/`_ncols` fields and are unchanged when
the underlying line list is mutated after construction. -/
theorem C4_frozen_counts (l : LineList) (m : LineListTableModel) (l' : LineList)
    (h : LineListTableModel.build l = some m) :
    m.rowCount = l.rows.length ∧
    (setLinelist m l').rowCount = m.rowCount ∧
    (setLinelist m l').columnCount = m.columnCount := by
  obtain ⟨-, -, hn, -⟩ := build_fields l m h
  exact ⟨hn, rfl, rfl⟩

/-- The source list used in the C4 witness. -/
def exLL4 : LineList :=
  { rows := [[Cell.val "x"], [Cell.val "y"]]
    colnames := ["wavelength"]
    units := ["Angstrom"]
    tooltips := none
    name := "ex4"
    wavelengths := [1, 2] }

/-- A mutated version of `exLL4` (all rows removed). -/
def exLL4' : LineList := { exLL4 with rows := [], wavelengths := [] }

/-- The snapshot `LineListTableModel.build` produces from `exLL4`. -/
def exM4 : LineListTableModel :=
  { linelist := exLL4, row_cells := [["x"], ["y"]], nrows := 2, ncols := 1 }

/-- Witness for C4: a concrete two-row source; after the source loses all its
rows, the frozen counts still report the construction-time values. -/
theorem C4_frozen_counts_witness :
    LineListTableModel.build exLL4 = some exM4 ∧
    exM4.rowCount = 2 ∧
    (setLinelist exM4 exLL4').rowCount = 2 ∧
    (setLinelist exM4 exLL4').columnCount = exM4.columnCount := by
  have h := C4_frozen_counts exLL4 exM4 exLL4' rfl
  exact ⟨rfl, h.1, h.2.1.trans h.1, h.2.2⟩

/-- C5 (amended): for non-negative indices, cell lookup at display role
returns the frozen text exactly on in-bounds indices and an `IndexError` on
out-of-bounds ones, and the result is computed from the frozen `_row_cells`
only — it is unchanged when the underlying source is replaced after
construction.  (For negative indices see `C5_counterexample`.) -/
theorem C5_bounds_behavior (m : LineListTableModel) (r c : Nat) (role : Role)
    (l' : LineList) :
    (m.data (r : Int) (c : Int) Role.display =
      (match cellView m r c with
       | some s => DataResult.cell s
       | none => DataResult.indexError)) ∧
    (setLinelist m l').data (r : Int) (c : Int) role = m.data (r : Int) (c : Int) role :=
  ⟨data_natCast m r c, rfl⟩

/-- The source list used in the C5 counterexample. -/
def exLL5 : LineList :=
  { rows := [[Cell.val "a"], [Cell.val "b"]]
    colnames := ["wavelength"]
    units := ["Angstrom"]
    tooltips := none
    name := "ex5"
    wavelengths := [1, 2] }

/-- The snapshot `LineListTableModel.build` produces from `exLL5`. -/
def exM5 : LineListTableModel :=
  { linelist := exLL5, row_cells := [["a"], ["b"]], nrows := 2, ncols := 1 }

/-- C5 counterexample: on the 2×1 snapshot built from `exLL5`, the index
(row = -1, col = 0) is out of bounds of the frozen structure (its row is
negative, not one of 0..nrows-1), yet `data` does not fail with an
`IndexError`: Python's negative indexing silently redirects the lookup to the
last row and returns row 1's frozen text "b". -/
theorem C5_counterexample :
    LineListTableModel.build exLL5 = some exM5 ∧
    exM5.nrows = 2 ∧
    ¬ (0 ≤ (-1 : Int)) ∧
    exM5.data (-1) 0 Role.display = DataResult.cell "b" ∧
    exM5.data (-1) 0 Role.display ≠ DataResult.indexError :=
  ⟨rfl, rfl, by decide, by decide, by decide⟩

/-- C7: building a snapshot from a source with zero rows succeeds (the
column-count probe of row 0 sits inside the row loop, so it is never reached
and no `IndexError` escapes) and reports `rowCount = 0` and
`columnCount = 0`. -/
theorem C7_empty_source (l : LineList) (h : l.rows = []) :
    ∃ m, LineListTableModel.build l = some m ∧ m.rowCount = 0 ∧ m.columnCount = 0 := by
  obtain ⟨m, hm⟩ := build_total l
  obtain ⟨-, -, hn, hc⟩ := build_fields l m hm
  refine ⟨m, hm, ?_, ?_⟩
  · rw [LineListTableModel.rowCount, hn, h]
    rfl
  · rw [LineListTableModel.columnCount, hc, h]
    rfl

/-- The empty source used in the C7 witness. -/
def exLL7 : LineList :=
  { rows := []
    colnames := ["wavelength"]
    units := ["Angstrom"]
    tooltips := none
    name := "ex7"
    wavelengths := [] }

/-- Witness for C7: the concrete empty source `exLL7`. -/
theorem C7_empty_source_witness :
    exLL7.rows = [] ∧
    ∃ m, LineListTableModel.build exLL7 = some m ∧ m.rowCount = 0 ∧ m.columnCount = 0 :=
  ⟨rfl, C7_empty_source exLL7 rfl⟩

/-- C10: for a source with at least one row, the frozen `columnCount` is the
length of row 0 alone (rows of other lengths do not influence it), and
`columnCount` does not guard cell lookup: at any in-range column index
`c < columnCount` whose cell is absent from the frozen (ragged) structure,
lookup still fails with an `IndexError`. -/
theorem C10_ragged_columns (l : LineList) (m : LineListTableModel)
    (row₀ : List Cell) (rest : List (List Cell))
    (hb : LineListTableModel.build l = some m) (hr : l.rows = row₀ :: rest) :
    m.columnCount = row₀.length ∧
    ∀ (r c : Nat), c < m.columnCount → cellView m r c = none →
      m.data (r : Int) (c : Int) Role.display = DataResult.indexError := by
  obtain ⟨-, -, -, hc⟩ := build_fields l m hb
  constructor
  · rw [LineListTableModel.columnCount, hc, hr]
    rfl
  · intro r c _ hcv
    rw [data_natCast m r c, hcv]

/-- The ragged source used in the C10 witness: row 0 has two cells, row 1 has
one. -/
def exLL10 : LineList :=
  { rows := [[Cell.val "a", Cell.val "b"], [Cell.val "c"]]
    colnames := ["wavelength", "id"]
    units := ["Angstrom", ""]
    tooltips := none
    name := "ex10"
    wavelengths := [1, 2] }

/-- The snapshot `LineListTableModel.build` produces from `exLL10`. -/
def exM10 : LineListTableModel :=
  { linelist := exLL10, row_cells := [["a", "b"], ["c"]], nrows := 2, ncols := 2 }

/-- Witness for C10: on the ragged `exLL10`, `columnCount` is 2 (row 0's
width), and the lookup at (1, 1) — in range by `columnCount` but beyond
row 1's actual length — raises `IndexError`. -/
theorem C10_ragged_columns_witness :
    LineListTableModel.build exLL10 = some exM10 ∧
    exM10.columnCount = 2 ∧
    (1 : Nat) < exM10.columnCount ∧
    exM10.data 1 1 Role.display = DataResult.indexError := by
  have h := C10_ragged_columns exLL10 exM10 [Cell.val "a", Cell.val "b"] [[Cell.val "c"]] rfl rfl
  refine ⟨rfl, h.1, by decide, ?_⟩
  have := h.2 1 1 (by decide) (by decide)
  simpa using this

/-- The text fields used in the C1 counterexample and witness: both valid and
holding the same value 100. -/
def mnTF : TextField := { hasAcceptableInput := true, value := 100 }

/-- See `mnTF`. -/
def mxTF : TextField := { hasAcceptableInput := true, value := 100 }

/-- The label used in the C1 counterexample: it currently displays "7". -/
def lblC1 : QLabel := { text := "7", styleSheet := "" }

/-- The three-row source used in the C1 counterexample. -/
def llC1 : LineList :=
  { rows := [[Cell.val "a"], [Cell.val "b"], [Cell.val "c"]]
    colnames := ["wavelength"]
    units := ["Angstrom"]
    tooltips := none
    name := "c1"
    wavelengths := [1, 2, 3] }

/-- C1 counterexample: with equal present bounds (100, 100) the range does
resolve to `(None, None)` and no filtering happens, but the reported in-range
count does **not** become the full unfiltered row count (3): the label is
returned untouched and keeps displaying its previous text "7". -/
theorem C1_counterexample :
    getRangeFromTextfields mnTF mxTF = (none, none) ∧
    computeNlinesInWaverange llC1 mnTF mxTF lblC1 = lblC1 ∧
    llC1.rows.length = 3 ∧
    (computeNlinesInWaverange llC1 mnTF mxTF lblC1).text = "7" ∧
    (computeNlinesInWaverange llC1 mnTF mxTF lblC1).text ≠ toString llC1.rows.length :=
  ⟨by decide, by decide, by decide, by decide, by decide⟩

/-- C1 (amended): for every pair of equal present bounds, the range resolves
to the absent range `(None, None)` and no filtering or counting is performed —
`_compute_nlines_in_waverange` returns the label unchanged (the previously
reported count persists; in particular the count is not set to zero or one,
but it is not recomputed to the full row count either). -/
theorem C1_amended_degenerate (ll : LineList) (mn mx : TextField) (lbl : QLabel)
    (h1 : mn.hasAcceptableInput = true) (h2 : mx.hasAcceptableInput = true)
    (h3 : mx.value = mn.value) :
    getRangeFromTextfields mn mx = (none, none) ∧
    computeNlinesInWaverange ll mn mx lbl = lbl := by
  have hg : getRangeFromTextfields mn mx = (none, none) := by
    simp [getRangeFromTextfields, h1, h2, h3]
  refine ⟨hg, ?_⟩
  rw [computeNlinesInWaverange, hg]
  simp [computeNlinesFromRange]

/-- Witness for the amended C1 at the concrete degenerate input (100, 100). -/
theorem C1_amended_degenerate_witness :
    getRangeFromTextfields mnTF mxTF = (none, none) ∧
    computeNlinesInWaverange llC1 mnTF mxTF lblC1 = lblC1 :=
  C1_amended_degenerate llC1 mnTF mxTF lblC1 rfl rfl rfl

/-- C8: whenever at least one bound is present, the reported count is the
string of the row count of the subset delegated to the source's
`extract_range`; and a single present bound acts as a one-sided constraint on
the wavelength column (filtering proceeds, both bounds are not required). -/
theorem C8_count_in_range (ll : LineList) (r : Option ℚ × Option ℚ) (lbl : QLabel)
    (h : r.1 ≠ none ∨ r.2 ≠ none) (hp : ll.rows.length = ll.wavelengths.length) :
    (computeNlinesFromRange ll r lbl).text =
      toString (ll.extract_range r).rows.length ∧
    (∀ a : ℚ, (ll.extract_range (some a, none)).wavelengths =
      List.filter (fun w => decide (a ≤ w)) ll.wavelengths) := by
  constructor
  · rw [computeNlinesFromRange, if_pos h]
    simp [LineList.extract_range]
  · intro a
    simp only [LineList.extract_range, Bool.and_true]
    exact filter_zip_map_snd (fun w => decide (a ≤ w)) ll.rows ll.wavelengths hp

/-- The three-row source of the spec's range-count scenario (wavelengths 4500,
6000, 3000). -/
def llC8 : LineList :=
  { rows := [[Cell.val "4500"], [Cell.val "6000"], [Cell.val "3000"]]
    colnames := ["wavelength"]
    units := ["Angstrom"]
    tooltips := none
    name := "c8"
    wavelengths := [4500, 6000, 3000] }

/-- The label used in the C8 witness. -/
def lblC8 : QLabel := { text := "", styleSheet := "" }

/-- Witness for C8: on `llC8`, the range (4000, 5000) reports the delegated
row count "1"; the one-sided range (4000, —) still filters and reports "2". -/
theorem C8_count_in_range_witness :
    ((computeNlinesFromRange llC8 (some 4000, some 5000) lblC8).text =
      toString (llC8.extract_range (some 4000, some 5000)).rows.length) ∧
    (computeNlinesFromRange llC8 (some 4000, some 5000) lblC8).text = "1" ∧
    (computeNlinesFromRange llC8 (some 4000, none) lblC8).text = "2" ∧
    (llC8.extract_range (some 4000, none)).wavelengths = [4500, 6000] := by
  refine ⟨(C8_count_in_range llC8 (some 4000, some 5000) lblC8
            (Or.inl (by decide)) rfl).1, by decide, by decide, by decide⟩

/-- C6: for an in-range column, the header tooltip is the column's unit string
whenever the column name is the wavelength or error column — regardless of any
configured tooltip text — and otherwise it is the source's configured tooltip
text for that column, degrading to the empty string when the tooltip data is
missing (`None`) or empty. -/
theorem C6_header_tooltips (m : LineListTableModel) (sec : Nat) (cname : String)
    (hc : m.linelist.colnames[sec]? = some cname) :
    ((cname = WAVELENGTH_COLUMN ∨ cname = ERROR_COLUMN) →
      m.headerData (sec : Int) Orient.horizontal Role.toolTip =
        (match m.linelist.units[sec]? with
         | none => HeaderResult.indexError
         | some u => HeaderResult.text u)) ∧
    (cname ≠ WAVELENGTH_COLUMN → cname ≠ ERROR_COLUMN →
      (((m.linelist.tooltips = none ∨ m.linelist.tooltips = some []) →
          m.headerData (sec : Int) Orient.horizontal Role.toolTip = HeaderResult.text "") ∧
       (∀ (ts : List String) (t : String),
          m.linelist.tooltips = some ts → ts[sec]? = some t →
          m.headerData (sec : Int) Orient.horizontal Role.toolTip = HeaderResult.text t))) := by
  have h0 : m.headerData (sec : Int) Orient.horizontal Role.toolTip =
      (if cname = WAVELENGTH_COLUMN ∨ cname = ERROR_COLUMN then
        (match m.linelist.units[sec]? with
         | none => HeaderResult.indexError
         | some u => HeaderResult.text u)
      else
        (match m.linelist.tooltips with
         | none => HeaderResult.text ""
         | some ts =>
           if ts.isEmpty then HeaderResult.text ""
           else
             match ts[sec]? with
             | none => HeaderResult.indexError
             | some t => HeaderResult.text t)) := by
    simp only [LineListTableModel.headerData, pyGet_natCast, hc]
    rw [if_neg (by simp), if_pos (by simp)]
  constructor
  · intro hcw
    rw [h0, if_pos hcw]
  · intro hw he
    have hne : ¬ (cname = WAVELENGTH_COLUMN ∨ cname = ERROR_COLUMN) := by
      rintro (h | h)
      · exact hw h
      · exact he h
    constructor
    · intro htt
      rcases htt with htt | htt
      · rw [h0, if_neg hne, htt]
      · rw [h0, if_neg hne, htt]
        rfl
    · intro ts t hts hget
      have hemp : ts.isEmpty = false := by
        cases ts with
        | nil => simp at hget
        | cons x xs => rfl
      rw [h0, if_neg hne, hts]
      simp [hemp, hget]

/-- The source used in the C6 witness: a wavelength column with a configured
tooltip that must be ignored in favor of the unit, and a second column whose
configured tooltip is served. -/
def exLL6 : LineList :=
  { rows := []
    colnames := [WAVELENGTH_COLUMN, "id"]
    units := ["Angstrom", ""]
    tooltips := some ["configured wavelength tip", "the id"]
    name := "ex6"
    wavelengths := [] }

/-- A model over `exLL6` (the header data only reads the stored line list). -/
def exM6 : LineListTableModel :=
  { linelist := exLL6, row_cells := [], nrows := 0, ncols := 0 }

/-- Witness for C6: on `exLL6`, the wavelength column's tooltip is the unit
string "Angstrom" — not the configured tooltip — and the other column's
tooltip is its configured text. -/
theorem C6_header_tooltips_witness :
    exM6.headerData 0 Orient.horizontal Role.toolTip = HeaderResult.text "Angstrom" ∧
    exM6.headerData 1 Orient.horizontal Role.toolTip = HeaderResult.text "the id" := by
  constructor
  · have h := (C6_header_tooltips exM6 0 WAVELENGTH_COLUMN rfl).1 (Or.inl rfl)
    simpa using h
  · have h := ((C6_header_tooltips exM6 1 "id" rfl).2 (by decide) (by decide)).2
      ["configured wavelength tip", "the id"] "the id" rfl rfl
    simpa using h
